import Mathlib

/-!
Verification of the innertube client core (`src/api/innertube.rs`).

The JSON values handled by the client are modelled by the inductive type
`Json`, mirroring `serde_json::Value` restricted to integer numerals
(`as_i64` on a non-integer numeral yields `none` in the original as well,
so non-integer numerals behave like the other non-string, non-array
variants for every operation the client performs).  Fallible Rust
functions returning `Result<_, String>` are modelled with
`Except String _`.  Network transport is abstracted: each parsing
function takes the already decoded response value (or a transport oracle)
as an argument.  Lyric timestamps, `f64` in the original, are modelled
by `F64`: NaN, signed infinity, or a finite value carried exactly as a
rational; the numeral reader models Rust `str::parse::<f64>` including
the sign, the case-insensitive `inf`/`infinity`/`nan` spellings, and
exponents, and the arithmetic and `partial_cmp` comparisons follow the
IEEE special-value rules.  Only the rounding of finite values (and the
overflow of out-of-range literals to infinity) is not modelled: finite
results are exact, and since rounding is monotone every non-strict
ordering fact proved here of the exact values holds of the rounded
ones as well.  Rust
string primitives (`replace`, `trim`, `split`, `find`, `contains`,
`starts_with`) are modelled by structurally recursive functions on
character lists; `char::is_whitespace` is modelled on the ASCII
whitespace characters, the only ones the call sites meet.
-/

/-- Model of `serde_json::Value` with integer numerals. -/
inductive Json where
  | null : Json
  | bool : Bool → Json
  | num : Int → Json
  | str : String → Json
  | arr : List Json → Json
  | obj : List (String × Json) → Json
deriving Repr

/-- First binding of a key in an association list (object keys are unique
in `serde_json`, so first-match lookup models `Map::get`). -/
def jsonFind (key : String) : List (String × Json) → Option Json
  | [] => none
  | (k, v) :: rest => if k = key then some v else jsonFind key rest

/-- Model of `Value::get(key)` on objects (`None` on other variants). -/
def Json.get (j : Json) (key : String) : Option Json :=
  match j with
  | Json.obj kvs => jsonFind key kvs
  | _ => none

/-- Model of `Value::as_str`. -/
def Json.asStr : Json → Option String
  | Json.str s => some s
  | _ => none

/-- Model of `Value::as_array`. -/
def Json.asArr : Json → Option (List Json)
  | Json.arr xs => some xs
  | _ => none

/-- Model of `Value::as_i64` (integer numerals only, see module header). -/
def Json.asI64 : Json → Option Int
  | Json.num n => some n
  | _ => none

/-- Decimal digit reader for pointer array-index tokens. -/
def digitsToNat : List Char → Option Nat
  | [] => none
  | cs => cs.foldl (fun acc c => match acc with
      | none => none
      | some n => if c.isDigit then some (n * 10 + (c.toNat - 48)) else none)
      (some 0)

/-- Model of `serde_json`'s pointer array-index token parse: a plain
decimal `usize` with no leading zero (except `"0"` itself). -/
def parseIndex (s : String) : Option Nat :=
  match s.data with
  | [] => none
  | ['0'] => some 0
  | '0' :: _ :: _ => none
  | cs => digitsToNat cs

/-- Model of `Value::pointer`, taking the pointer's already-split token
list (the Rust call sites use literal `/`-separated paths with no escape
sequences; each list below is that path split on `/`). -/
def Json.pointer (j : Json) (tokens : List String) : Option Json :=
  match tokens with
  | [] => some j
  | t :: ts =>
    match j with
    | Json.obj kvs => (jsonFind t kvs).bind (fun v => Json.pointer v ts)
    | Json.arr xs => ((parseIndex t).bind (fun i => xs[i]?)).bind (fun v => Json.pointer v ts)
    | _ => none

/-- If `s` begins with `pat`, return the remainder of `s` after `pat`
(models `str::strip` of a literal pattern and powers the substring
search below). -/
def stripPre (pat s : List Char) : Option (List Char) :=
  match pat, s with
  | [], rest => some rest
  | _ :: _, [] => none
  | p :: ps, c :: cs => if c = p then stripPre ps cs else none

theorem stripPre_length (pat s rest : List Char) (h : stripPre pat s = some rest) :
    rest.length + pat.length = s.length := by
  induction pat generalizing s with
  | nil => simp [stripPre] at h; simp [h]
  | cons p ps ih =>
    match s with
    | [] => simp [stripPre] at h
    | c :: cs =>
      simp [stripPre] at h
      have := ih cs h.2
      simp [List.length_cons]
      omega

/-- Model of `str::starts_with` for a literal pattern. -/
def listStartsWith (pat s : List Char) : Bool :=
  (stripPre pat s).isSome

/-- Model of `str::contains` for a literal pattern. -/
def containsList (pat : List Char) : List Char → Bool
  | [] => (stripPre pat []).isSome
  | c :: cs => (stripPre pat (c :: cs)).isSome || containsList pat cs

/-- Model of `str::contains` on strings. -/
def containsSubstr (s pat : String) : Bool :=
  containsList pat.data s.data

/-- Replacement loop of `str::replace` for the nonempty pattern
`p :: ps`: replace every non-overlapping occurrence, left to right,
never rescanning replaced text. -/
def replChars (p : Char) (ps rep : List Char) (s : List Char) : List Char :=
  match s with
  | [] => []
  | c :: cs =>
    match h : stripPre (p :: ps) (c :: cs) with
    | some rest => rep ++ replChars p ps rep rest
    | none => c :: replChars p ps rep cs
termination_by s.length
decreasing_by
  · have := stripPre_length (p :: ps) (c :: cs) rest h
    simp at this ⊢
    omega
  · simp

/-- Model of `str::replace` with a literal pattern (every call site uses
a nonempty pattern; the empty-pattern case never occurs). -/
def strReplace (s pat rep : String) : String :=
  match pat.data with
  | [] => s
  | p :: ps => String.mk (replChars p ps rep.data s.data)

/-- Model of `char::is_whitespace` on the ASCII whitespace characters. -/
def isWsChar (c : Char) : Bool :=
  c = ' ' || c = '\t' || c = '\n' || c = '\r' || c = '\x0b' || c = '\x0c'

/-- Model of `str::trim`. -/
def trimChars (s : List Char) : List Char :=
  ((s.dropWhile isWsChar).reverse.dropWhile isWsChar).reverse

/-- Model of `str::trim` on strings. -/
def trimStr (s : String) : String :=
  String.mk (trimChars s.data)

/-- First occurrence of character `c`: the part before it and the part
after it (models `str::find(char)` plus slicing, and
`str::split_once(char)`). -/
def splitFirst (c : Char) : List Char → Option (List Char × List Char)
  | [] => none
  | x :: xs =>
    if x = c then some ([], xs)
    else (splitFirst c xs).map (fun pr => (x :: pr.1, pr.2))

theorem splitFirst_length (c : Char) (s a b : List Char)
    (h : splitFirst c s = some (a, b)) : b.length < s.length := by
  induction s generalizing a b with
  | nil => simp [splitFirst] at h
  | cons x xs ih =>
    simp only [splitFirst] at h
    by_cases hx : x = c
    · simp [hx] at h
      simp [← h.2]
    · simp [hx] at h
      match hrec : splitFirst c xs with
      | none => rw [hrec] at h; simp at h
      | some (a2, b2) =>
        rw [hrec] at h
        simp at h
        obtain ⟨h1, ⟨ha2, hb2⟩, hxa⟩ := h
        have := ih a2 b2 hrec
        simp [← hb2]
        omega

/-- Model of `str::split(char)`: the pieces between occurrences of `c`
(always at least one piece). -/
def splitAll (c : Char) : List Char → List (List Char)
  | [] => [[]]
  | x :: xs =>
    match splitAll c xs with
    | [] => [[]]
    | piece :: rest => if x = c then [] :: piece :: rest else (x :: piece) :: rest

/-- Drop one trailing carriage return (the `\r\n` line-ending case of
`str::lines`). -/
def dropTrailingCR (l : List Char) : List Char :=
  match l.reverse with
  | '\r' :: rest => rest.reverse
  | _ => l

/-- Model of `str::lines`: split on `'\n'`, drop a final empty piece
(optional final line terminator), and strip one `'\r'` from every piece
that was terminated by `'\n'`. -/
def linesOf (s : String) : List String :=
  match (splitAll '\n' s.data).reverse with
  | [] => []
  | lastPiece :: revInit =>
    let first := (revInit.reverse.map dropTrailingCR).map String.mk
    if lastPiece.isEmpty then first else first ++ [String.mk lastPiece]

/-- Value of a nonempty all-digit character list, else `none` (the digit
mantissa case of Rust's `f64` reader). -/
def digitsVal (cs : List Char) : Option Nat :=
  if cs ≠ [] && cs.all Char.isDigit then
    some (cs.foldl (fun acc c => acc * 10 + (c.toNat - 48)) 0)
  else none

/-- Model of `f64` values as the lyric code observes them: NaN, a signed
infinity (`inf true` is `+∞`), or a finite value carried exactly as a
rational.  IEEE rounding of finite values is not modelled (finite
results are exact); rounding is monotone, so every non-strict comparison
fact proved of the exact values also holds of the rounded ones. -/
inductive F64 where
  | nan : F64
  | inf : Bool → F64
  | fin : ℚ → F64
deriving Repr, DecidableEq

/-- `f64` negation: the sign applied by the numeral reader. -/
def F64.neg : F64 → F64
  | F64.nan => F64.nan
  | F64.inf s => F64.inf (!s)
  | F64.fin q => F64.fin (-q)

/-- `f64` multiplication by the positive constant `60.0`
(`minutes * 60.0`): NaN and infinities propagate. -/
def F64.mul60 : F64 → F64
  | F64.nan => F64.nan
  | F64.inf s => F64.inf s
  | F64.fin q => F64.fin (q * 60)

/-- `f64` addition with IEEE special-value rules: NaN propagates, and
opposite infinities give NaN. -/
def F64.add : F64 → F64 → F64
  | F64.nan, _ => F64.nan
  | F64.inf _, F64.nan => F64.nan
  | F64.inf s, F64.inf t => if s = t then F64.inf s else F64.nan
  | F64.inf s, F64.fin _ => F64.inf s
  | F64.fin _, F64.nan => F64.nan
  | F64.fin _, F64.inf t => F64.inf t
  | F64.fin a, F64.fin b => F64.fin (a + b)

/-- `f64` division by the positive constant `10.0.powi(k)`
(`value / divisor`): NaN and infinities propagate.  Exact, like every
finite computation here: a fraction long enough (hundreds of digits)
for the divisor itself to overflow is not modelled. -/
def F64.divPow10 : F64 → Nat → F64
  | F64.nan, _ => F64.nan
  | F64.inf s, _ => F64.inf s
  | F64.fin q, k => F64.fin (q / 10 ^ k)

/-- Model of `f64::partial_cmp`: `none` iff either side is NaN,
otherwise the total order with `-∞ < finite < +∞`. -/
def f64Cmp : F64 → F64 → Option Ordering
  | F64.nan, _ => none
  | F64.inf _, F64.nan => none
  | F64.inf s, F64.inf t =>
    some (if s = t then Ordering.eq else if s then Ordering.gt else Ordering.lt)
  | F64.inf s, F64.fin _ => some (if s then Ordering.gt else Ordering.lt)
  | F64.fin _, F64.nan => none
  | F64.fin _, F64.inf t => some (if t then Ordering.lt else Ordering.gt)
  | F64.fin a, F64.fin b =>
    some (if a < b then Ordering.lt else if b < a then Ordering.gt else Ordering.eq)

/-- Unsigned decimal mantissa: digits with an optional single fractional
point, at least one digit in total, read exactly. -/
def parseMantissa (cs : List Char) : Option ℚ :=
  match splitFirst '.' cs with
  | none => (digitsVal cs).map (fun n => (n : ℚ))
  | some (ip, fp) =>
    if (ip.isEmpty || ip.all Char.isDigit) && (fp.isEmpty || fp.all Char.isDigit)
        && !(ip.isEmpty && fp.isEmpty) then
      some (((ip.foldl (fun acc c => acc * 10 + (c.toNat - 48)) 0 : Nat) : ℚ)
        + ((fp.foldl (fun acc c => acc * 10 + (c.toNat - 48)) 0 : Nat) : ℚ) / 10 ^ fp.length)
    else none

/-- Split at the first exponent marker `e`/`E`. -/
def splitFirstEMark : List Char → Option (List Char × List Char)
  | [] => none
  | x :: xs =>
    if x = 'e' || x = 'E' then some ([], xs)
    else (splitFirstEMark xs).map (fun pr => (x :: pr.1, pr.2))

/-- Optionally signed all-digit exponent. -/
def parseExpInt (cs : List Char) : Option Int :=
  match cs with
  | '-' :: rest => (digitsVal rest).map (fun n => -(n : Int))
  | '+' :: rest => (digitsVal rest).map (fun n => (n : Int))
  | _ => (digitsVal cs).map (fun n => (n : Int))

/-- Unsigned decimal literal with an optional exponent, read exactly
(overflow of out-of-range literals to infinity is not modelled; no
claim depends on it). -/
def parseDecimal (cs : List Char) : Option ℚ :=
  match splitFirstEMark cs with
  | none => parseMantissa cs
  | some (mant, expPart) =>
    (parseMantissa mant).bind (fun q =>
      (parseExpInt expPart).map (fun e => q * 10 ^ e))

/-- Unsigned body of Rust's `f64` reader: the case-insensitive spellings
`inf`, `infinity` and `nan`, or a decimal literal. -/
def parseF64Body (cs : List Char) : Option F64 :=
  let low := cs.map Char.toLower
  if low = "inf".data || low = "infinity".data then some (F64.inf true)
  else if low = "nan".data then some F64.nan
  else (parseDecimal cs).map F64.fin

/-- Model of `str::parse::<f64>()`: optional sign, then `inf`,
`infinity` or `nan` (case-insensitive) or a decimal literal with
optional fraction and exponent; finite values are exact (see `F64`). -/
def parseF64 (s : String) : Option F64 :=
  match s.data with
  | '-' :: rest => (parseF64Body rest).map F64.neg
  | '+' :: rest => parseF64Body rest
  | cs => parseF64Body cs

/-- `SearchResult` (src/api/innertube.rs). -/
structure SearchResult where
  video_id : String
  title : String
  artist : String
  duration : String
  thumbnail_url : Option String
deriving Repr, DecidableEq

/-- `SearchPage` (src/api/innertube.rs). -/
structure SearchPage where
  results : List SearchResult
  continuation : Option String
deriving Repr, DecidableEq

/-- `LyricLine` (src/api/innertube.rs); the `f64` timestamp is modelled
by `F64` (NaN, signed infinity, or an exact finite value). -/
structure LyricLine where
  timestamp : F64
  text : String
deriving Repr, DecidableEq

/-- `StreamInfo` (src/api/innertube.rs). -/
structure StreamInfo where
  url : String
  title : String
  artist : String
  thumbnail_url : Option String
  lyrics : Option (List LyricLine)
deriving Repr, DecidableEq

/-- `normalize_thumbnail_url`. -/
def normalize_thumbnail_url (url : String) : Option String :=
  let trimmed := trimStr url
  if trimmed = "" then none
  else if listStartsWith ['/', '/'] trimmed.data then
    some ("https://" ++ String.mk (trimmed.data.drop 2))
  else if listStartsWith "http://".data trimmed.data
      || listStartsWith "https://".data trimmed.data then some trimmed
  else none

/-- `clean_track_title`. -/
def clean_track_title (title : String) : String :=
  trimStr (strReplace (strReplace (strReplace (strReplace title
    "(Official Music Video)" "") "(Official Video)" "") "(Official Lyric Video)" "") "(Lyric Video)" "")

/-- `clean_track_artist`. -/
def clean_track_artist (artist : String) : String :=
  trimStr (strReplace artist " - Topic" "")

/-- `upgrade_music_thumbnail`: three chained literal replacements, in the
source's order. -/
def upgrade_music_thumbnail (url : String) : String :=
  strReplace (strReplace (strReplace url "w120-h120" "w500-h500") "w60-h60" "w500-h500") "w120-h120-rj" "w500-h500"

/-- Path to an item's watch-target video id (`parse_music_search_items`). -/
def videoIdPath : List String :=
  ["overlay", "musicItemThumbnailOverlayRenderer", "content", "musicPlayButtonRenderer",
   "playNavigationEndpoint", "watchEndpoint", "videoId"]

/-- Path to a run's page-type hint (`parse_music_search_items`). -/
def pageTypePath : List String :=
  ["navigationEndpoint", "browseEndpoint", "browseEndpointContextSupportedConfigs",
   "browseEndpointContextMusicConfig", "pageType"]

/-- Path to an item's thumbnail list (`parse_music_search_items`). -/
def thumbListPath : List String :=
  ["thumbnail", "musicThumbnailRenderer", "thumbnail", "thumbnails"]

/-- Path to the section list of the initial-page shape
(`collect_music_search_items`). -/
def sectionsPath : List String :=
  ["contents", "tabbedSearchResultsRenderer", "tabs", "0", "tabRenderer", "content",
   "sectionListRenderer", "contents"]

/-- Path to a shelf-level continuation token (`collect_music_search_items`). -/
def shelfContinuationPath : List String :=
  ["continuations", "0", "nextContinuationData", "continuation"]

/-- Path to a continuation marker's embedded token
(`collect_music_search_items`). -/
def markerTokenPath : List String :=
  ["continuationItemRenderer", "continuationEndpoint", "continuationCommand", "token"]

/-- `extract_text`: prefer `simpleText`, else the concatenation of all
run texts, an empty concatenation counting as absent. -/
def extract_text (value : Json) : Option String :=
  match (value.get "simpleText").bind Json.asStr with
  | some t => some t
  | none =>
    match (value.get "runs").bind Json.asArr with
    | none => none
    | some runs =>
      let output := runs.foldl (fun acc run => acc ++ (((run.get "text").bind Json.asStr).getD "")) ""
      if output = "" then none else some output

/-- Second half of `extract_duration`: the `lengthText` fallback. -/
def durationLengthText (renderer : Json) : Option String :=
  match ((renderer.get "lengthText").bind extract_text).map trimStr with
  | some t => if t ≠ "" then some t else none
  | none => none

/-- `extract_duration`: fixed-column text first, then `lengthText`. -/
def extract_duration (renderer : Json) : Option String :=
  match ((renderer.pointer ["fixedColumns", "0", "musicResponsiveListItemFixedColumnRenderer", "text"]).bind extract_text).map trimStr with
  | some t => if t ≠ "" then some t else durationLengthText renderer
  | none => durationLengthText renderer

/-- Loop body of the secondary-flex-column scan of
`parse_music_search_items`: a run tagged as artist page overwrites the
artist, a run tagged as album page overwrites the album. -/
def artistAlbumStep (acc : String × String) (run : Json) : String × String :=
  let page_type := ((run.pointer pageTypePath).bind Json.asStr).getD ""
  let text := ((run.get "text").bind Json.asStr).getD ""
  if page_type = "MUSIC_PAGE_TYPE_ARTIST" then (text, acc.2)
  else if page_type = "MUSIC_PAGE_TYPE_ALBUM" then (acc.1, text)
  else acc

/-- One iteration of the `parse_music_search_items` loop: `none` exactly
when the original `continue`s (no renderer, or no resolvable video id). -/
def parse_one_item (item : Json) : Option SearchResult :=
  match item.get "musicResponsiveListItemRenderer" with
  | none => none
  | some renderer =>
    let video_id := ((renderer.pointer videoIdPath).bind Json.asStr).getD ""
    if video_id = "" then none
    else
      let flex_columns := ((renderer.get "flexColumns").bind Json.asArr).getD []
      let title := ((flex_columns.head?.bind
        (fun c => c.pointer ["musicResponsiveListItemFlexColumnRenderer", "text"])).bind extract_text).getD "Unknown"
      let artistAlbum :=
        match (flex_columns[1]?.bind
          (fun c => c.pointer ["musicResponsiveListItemFlexColumnRenderer", "text", "runs"])).bind Json.asArr with
        | none => ("", "")
        | some secondary =>
          let aa := secondary.foldl artistAlbumStep ("", "")
          if aa.1 = "" then
            (((secondary.head?.bind (fun r => r.get "text")).bind Json.asStr).getD "", aa.2)
          else aa
      let duration := (extract_duration renderer).getD "--:--"
      let thumbnail_url := (((((renderer.pointer thumbListPath).bind Json.asArr).bind
        List.getLast?).bind (fun t => t.get "url")).bind Json.asStr).bind normalize_thumbnail_url
      let artist := if artistAlbum.1 = "" then artistAlbum.2 else artistAlbum.1
      some { video_id := video_id
             title := title
             artist := if artist = "" then "Unknown" else artist
             duration := duration
             thumbnail_url := thumbnail_url }

/-- `parse_music_search_items`: never fails, unparseable items skipped. -/
def parse_music_search_items (items : List Json) : List SearchResult :=
  items.filterMap parse_one_item

/-- A shelf node's item list (`music_shelf.get("contents")`). -/
def shelfItems (shelf : Json) : List Json :=
  ((shelf.get "contents").bind Json.asArr).getD []

/-- A shelf node's own continuation token. -/
def shelfToken (shelf : Json) : Option String :=
  (shelf.pointer shelfContinuationPath).bind Json.asStr

/-- One iteration of the initial-page section loop of
`collect_music_search_items`: sections without a music shelf are
skipped; the shelf's items are appended; the continuation token is set
only if still unset. -/
def sectionStep (acc : List Json × Option String) (s : Json) : List Json × Option String :=
  match s.get "musicShelfRenderer" with
  | none => acc
  | some shelf => (acc.1 ++ shelfItems shelf, acc.2.or (shelfToken shelf))

/-- A continuation marker's embedded token. -/
def markerToken (item : Json) : Option String :=
  (item.pointer markerTokenPath).bind Json.asStr

/-- One iteration of the streamed-continuation item loop: regular result
items are kept, and the first marker token encountered is captured. -/
def continuationItemStep (acc : List Json × Option String) (item : Json) : List Json × Option String :=
  ((if (item.get "musicResponsiveListItemRenderer").isSome then acc.1 ++ [item] else acc.1),
   acc.2.or (markerToken item))

/-- A command's append-action item list (commands without one are
skipped, their contribution being the empty list). -/
def commandItems (command : Json) : List Json :=
  ((command.pointer ["appendContinuationItemsAction", "continuationItems"]).bind Json.asArr).getD []

/-- One iteration of the streamed-continuation command loop. -/
def commandStep (acc : List Json × Option String) (command : Json) : List Json × Option String :=
  (commandItems command).foldl continuationItemStep acc

/-- Third (streamed-continuation) shape of `collect_music_search_items`,
including the final no-results check. -/
def collectStreamed (value : Json) : Except String (List Json × Option String) :=
  let r := (((value.pointer ["onResponseReceivedCommands"]).bind Json.asArr).getD []).foldl commandStep ([], none)
  if !r.1.isEmpty || r.2.isSome then Except.ok r else Except.error "No search results"

/-- `collect_music_search_items`: try the initial-page shape, then the
resumed-page shape, then the streamed-continuation shape; the first
shape yielding items or a token wins. -/
def collect_music_search_items (value : Json) : Except String (List Json × Option String) :=
  let r1 := (((value.pointer sectionsPath).bind Json.asArr).getD []).foldl sectionStep ([], none)
  if !r1.1.isEmpty || r1.2.isSome then Except.ok r1
  else
    match value.pointer ["continuationContents", "musicShelfContinuation"] with
    | some cc =>
      let r2 := (shelfItems cc, shelfToken cc)
      if !r2.1.isEmpty || r2.2.isSome then Except.ok r2 else collectStreamed value
    | none => collectStreamed value

/-- `parse_music_search_results_with_continuation`. -/
def parse_music_search_results_with_continuation (value : Json) : Except String SearchPage :=
  match collect_music_search_items value with
  | Except.error e => Except.error e
  | Except.ok r => Except.ok { results := parse_music_search_items r.1, continuation := r.2 }

/-- One iteration of the adaptive-format loop of `stream_info`: skip
entries whose mime type lacks the substring `"audio"` or whose `url`
field is absent (as a string); otherwise keep the entry's url when its
bitrate strictly exceeds the best seen so far (initially 0). -/
def selStep (acc : Option String × Int) (item : Json) : Option String × Int :=
  let mime := ((item.get "mimeType").bind Json.asStr).getD ""
  let url := (item.get "url").bind Json.asStr
  if !(containsSubstr mime "audio") || url.isNone then acc
  else
    let bitrate := ((item.get "bitrate").bind Json.asI64).getD 0
    if bitrate > acc.2 then (url, bitrate) else acc

/-- The adaptive-formats array of a player response (absent or non-array
contributes no entries, as in the original's nested `if let`s). -/
def adaptiveFormats (value : Json) : List Json :=
  ((value.pointer ["streamingData", "adaptiveFormats"]).bind Json.asArr).getD []

/-- `stream_info` after the transport call: playability check, format
selection and metadata extraction on the decoded player response.  The
`cover` and `lyrics` arguments stand for the results of the two
best-effort network enrichments (`fetch_music_cover` and
`fetch_synced_lyrics`), which never fail the resolution. -/
def stream_info_of (value : Json) (cover : Option String)
    (lyrics : Option (List LyricLine)) : Except String StreamInfo :=
  let status := ((value.pointer ["playabilityStatus", "status"]).bind Json.asStr).getD "ERROR"
  if status ≠ "OK" then
    Except.error (((value.pointer ["playabilityStatus", "reason"]).bind Json.asStr).getD "Not available")
  else
    let best := (adaptiveFormats value).foldl selStep (none, 0)
    match best.1 with
    | none => Except.error "No audio stream found"
    | some url =>
      let title := ((value.pointer ["videoDetails", "title"]).bind Json.asStr).getD "Unknown"
      let artist := strReplace (((value.pointer ["videoDetails", "author"]).bind Json.asStr).getD "Unknown") " - Topic" ""
      let video_thumbnail_url := (((((value.pointer ["videoDetails", "thumbnail", "thumbnails"]).bind
        Json.asArr).bind List.getLast?).bind (fun t => t.get "url")).bind Json.asStr).bind normalize_thumbnail_url
      Except.ok { url := url
                  title := title
                  artist := artist
                  thumbnail_url := cover.or video_thumbnail_url
                  lyrics := lyrics }

/-- `post_json` after the body has been decoded: capture a visitor token
if one is present, then fail on an explicit error envelope, else return
the decoded value.  Result: the call's outcome paired with the session's
visitor id after the call. -/
def post_json_decode (value : Json) (visitor_id : Option String) :
    Except String Json × Option String :=
  let visitor_id :=
    match (value.pointer ["responseContext", "visitorData"]).bind Json.asStr with
    | some v => some v
    | none => visitor_id
  match value.get "error" with
  | some err =>
    (Except.error (((err.get "message").bind Json.asStr).getD "Innertube error"), visitor_id)
  | none => (Except.ok value, visitor_id)

/-- `parse_lyric_timestamp`: `mm:ss` or `mm:ss.fraction` (exactly two
colon-separated components), the fraction digits read as a decimal
fraction of a second. -/
def parse_lyric_timestamp (value : String) : Option F64 :=
  match splitAll ':' value.data with
  | [mPart, sPart] =>
    (parseF64 (String.mk mPart)).bind (fun minutes =>
      let secsFrac :=
        match splitFirst '.' sPart with
        | some pr => (pr.1, some pr.2)
        | none => (sPart, none)
      (parseF64 (String.mk secsFrac.1)).bind (fun secs =>
        (match secsFrac.2 with
         | some fracCs =>
           (parseF64 (String.mk fracCs)).map (fun v => F64.divPow10 v fracCs.length)
         | none => some (F64.fin 0)).map (fun fractional =>
          F64.add (F64.add (F64.mul60 minutes) secs) fractional)))
  | _ => none

/-- Bracket scan of one lyric line (`parse_synced_lyrics`'s inner
`while` loop): collect the timestamps of the leading well-formed
bracket groups (tags that fail to parse are skipped but consumed), and
return the remaining text after the last consumed group; a `'['` with
no following `']'` stops the scan, the rest of the line becoming the
text. -/
def scanTags (cs : List Char) : List F64 × List Char :=
  match h1 : splitFirst '[' cs with
  | none => ([], cs)
  | some pre =>
    match h2 : splitFirst ']' pre.2 with
    | none => ([], cs)
    | some tagAfter =>
      let r := scanTags tagAfter.2
      (match parse_lyric_timestamp (String.mk tagAfter.1) with
       | some t => t :: r.1
       | none => r.1, r.2)
termination_by cs.length
decreasing_by
  have ha := splitFirst_length '[' cs pre.1 pre.2 (by rw [h1])
  have hb := splitFirst_length ']' pre.2 tagAfter.1 tagAfter.2 (by rw [h2])
  omega

/-- Collected (unsorted) lyric lines: one entry per valid tag on each
line, sharing the line's trimmed trailing text; lines whose text is
empty are discarded whole. -/
def collectLyricLines (lyrics : String) : List LyricLine :=
  (linesOf lyrics).foldl (fun acc raw =>
    let scanned := scanTags raw.data
    let text := trimStr (String.mk scanned.2)
    if text = "" then acc
    else acc ++ scanned.1.map (fun t => { timestamp := t, text := text })) []

/-- The comparison of `sort_by(|a, b| a.timestamp.partial_cmp(&b.timestamp)
.unwrap_or(Ordering::Equal))`, turned into the before-or-tied relation a
stable sort keeps: `true` unless the comparator answers `Greater` (NaN
pairs answer `Equal` via the `unwrap_or`). -/
def lyricLe (a b : LyricLine) : Bool :=
  match (f64Cmp a.timestamp b.timestamp).getD Ordering.eq with
  | Ordering.gt => false
  | _ => true

/-- `parse_synced_lyrics`: collect then stable-sort ascending by
timestamp (Rust `sort_by` is a stable sort, modelled by
`List.mergeSort`; on a comparator made non-transitive by NaN
timestamps, Rust documents the resulting order as unspecified, and
`List.mergeSort` is one stable refinement of it). -/
def parse_synced_lyrics (lyrics : String) : List LyricLine :=
  (collectLyricLines lyrics).mergeSort lyricLe

/-- The fixed music-search scoping parameter (`MUSIC_SEARCH_PARAMS`). -/
def MUSIC_SEARCH_PARAMS : String := "EgWKAQIIAWoKEAMQBBAJEAoQBQ%3D%3D"

/-- The `context.client` object merged into every search request body
(the web persona's name and version). -/
def searchContext : Json :=
  Json.obj [("client", Json.obj
    [("clientName", Json.str "WEB_REMIX"), ("clientVersion", Json.str "1.20230724.00.00")])]

/-- `search_music_page`'s request body: query plus scoping parameter for
a fresh search, continuation token alone for a resumed page. -/
def search_request_body (query : String) (continuation : Option String) : Json :=
  match continuation with
  | some token => Json.obj [("context", searchContext), ("continuation", Json.str token)]
  | none => Json.obj [("context", searchContext), ("query", Json.str query), ("params", Json.str MUSIC_SEARCH_PARAMS)]

/-- `search_music_page` over a transport oracle mapping a request body
to the decoded response (or a transport error). -/
def search_music_page (transport : Json → Except String Json)
    (query : String) (continuation : Option String) : Except String SearchPage :=
  match transport (search_request_body query continuation) with
  | Except.error e => Except.error e
  | Except.ok v => parse_music_search_results_with_continuation v

/-- `search_music`: the convenience entry point delegating to
`search_music_page` with no continuation and keeping only the results. -/
def search_music (transport : Json → Except String Json)
    (query : String) : Except String (List SearchResult) :=
  match search_music_page transport query none with
  | Except.error e => Except.error e
  | Except.ok page => Except.ok page.results

/-! ## Helper notions for the claims -/

/-- An adaptive-format entry the selection loop can actually pick: mime
type containing `"audio"`, a url string present, and a strictly positive
bitrate (the running best starts at 0 and only strictly greater bitrates
replace it). -/
def viableFormat (f : Json) : Bool :=
  containsSubstr (((f.get "mimeType").bind Json.asStr).getD "") "audio"
    && ((f.get "url").bind Json.asStr).isSome
    && decide (0 < ((f.get "bitrate").bind Json.asI64).getD 0)

/-- The resolvable video id of a raw search-item node: the watch-target
id behind the overlay play button, provided the renderer wrapper exists
and the id is non-empty (`parse_music_search_items` drops the node
otherwise). -/
def resolvableId (item : Json) : Option String :=
  match item.get "musicResponsiveListItemRenderer" with
  | none => none
  | some renderer =>
    let vid := ((renderer.pointer videoIdPath).bind Json.asStr).getD ""
    if vid = "" then none else some vid

/-- Adaptive-format entry builder for concrete player responses. -/
def mkFormat (mime : String) (bitrate : Int) (url : String) : Json :=
  Json.obj [("mimeType", Json.str mime), ("bitrate", Json.num bitrate), ("url", Json.str url)]

/-- A player response with an OK playability status and the given
adaptive formats. -/
def mkPlayerResponse (formats : List Json) : Json :=
  Json.obj [("playabilityStatus", Json.obj [("status", Json.str "OK")]),
            ("streamingData", Json.obj [("adaptiveFormats", Json.arr formats)])]

/-- The adaptive-formats fixture of the spec's stream-selection test. -/
def c1formats : List Json :=
  [mkFormat "audio/mp4" 128000 "a", mkFormat "audio/webm" 256000 "b",
   mkFormat "video/mp4" 999999 "c"]

/-- Concrete player response carrying the spec's fixture formats. -/
def c1resp : Json := mkPlayerResponse c1formats

/-! ## Facts about the format-selection fold -/

theorem selStep_nonviable (acc : Option String × Int) (f : Json)
    (h : viableFormat f = false) (hacc : 0 ≤ acc.2) : selStep acc f = acc := by
  unfold selStep
  simp only []
  split_ifs with h1 h2
  · rfl
  · exfalso
    rw [viableFormat] at h
    simp only [Bool.or_eq_true, Bool.not_eq_true] at h1
    push_neg at h1
    obtain ⟨hm, hu⟩ := h1
    have hm2 : containsSubstr (((f.get "mimeType").bind Json.asStr).getD "") "audio" = true := by
      revert hm; cases containsSubstr (((f.get "mimeType").bind Json.asStr).getD "") "audio" <;> simp
    have hu2 : ((f.get "url").bind Json.asStr).isSome = true := by
      revert hu; cases (f.get "url").bind Json.asStr <;> simp
    rw [hm2, hu2] at h
    simp at h
    omega
  · rfl

theorem selStep_isSome (acc : Option String × Int) (f : Json)
    (h : acc.1.isSome) : ((selStep acc f).1).isSome := by
  unfold selStep
  simp only []
  split_ifs with h1 h2
  · exact h
  · simp only [Bool.or_eq_true, Bool.not_eq_true] at h1
    push_neg at h1
    have hu2 : ((f.get "url").bind Json.asStr).isSome = true := by
      have := h1.2
      revert this; cases (f.get "url").bind Json.asStr <;> simp
    exact hu2
  · exact h

theorem foldl_selStep_isSome (items : List Json) (acc : Option String × Int)
    (h : acc.1.isSome) : ((items.foldl selStep acc).1).isSome := by
  induction items generalizing acc with
  | nil => exact h
  | cons f fs ih => exact ih _ (selStep_isSome acc f h)

theorem selStep_viable (f : Json) (hv : viableFormat f = true) :
    selStep (none, 0) f
      = ((f.get "url").bind Json.asStr, ((f.get "bitrate").bind Json.asI64).getD 0) := by
  rw [viableFormat] at hv
  simp only [Bool.and_eq_true, decide_eq_true_eq] at hv
  obtain ⟨⟨hm, hu⟩, hb⟩ := hv
  unfold selStep
  simp only []
  split_ifs with h1 h2
  · exfalso
    simp only [Bool.or_eq_true, Bool.not_eq_true] at h1
    rcases h1 with h1 | h1
    · rw [hm] at h1; simp at h1
    · simp only [Option.isNone_iff_eq_none] at h1
      rw [h1] at hu; simp at hu
  · rfl

theorem foldl_selStep_none_iff (items : List Json) :
    ((items.foldl selStep (none, 0)).1 = none) ↔ ∀ f ∈ items, viableFormat f = false := by
  induction items with
  | nil => simp
  | cons f fs ih =>
    cases hv : viableFormat f with
    | false =>
      rw [List.foldl_cons, selStep_nonviable (none, 0) f hv (by simp)]
      simp [hv, ih]
    | true =>
      rw [List.foldl_cons, selStep_viable f hv]
      constructor
      · intro h
        have hu : ((f.get "url").bind Json.asStr).isSome = true := by
          rw [viableFormat] at hv
          simp only [Bool.and_eq_true] at hv
          exact hv.1.2
        have hs := foldl_selStep_isSome fs
          ((f.get "url").bind Json.asStr, ((f.get "bitrate").bind Json.asI64).getD 0) hu
        rw [h] at hs
        simp at hs
      · intro h
        have := h f (by simp)
        rw [hv] at this
        simp at this

theorem selStep_fst_cases (acc : Option String × Int) (f : Json) :
    (selStep acc f).1 = acc.1 ∨ (selStep acc f).1 = (f.get "url").bind Json.asStr := by
  unfold selStep
  simp only []
  split_ifs with h1 h2
  · exact Or.inl rfl
  · exact Or.inr rfl
  · exact Or.inl rfl

theorem foldl_selStep_mem (items : List Json) (acc : Option String × Int) (u : String)
    (h : (items.foldl selStep acc).1 = some u) :
    acc.1 = some u ∨ ∃ f ∈ items, (f.get "url").bind Json.asStr = some u := by
  induction items generalizing acc with
  | nil => exact Or.inl h
  | cons f fs ih =>
    rw [List.foldl_cons] at h
    rcases ih (selStep acc f) h with h2 | ⟨g, hg, hgu⟩
    · rcases selStep_fst_cases acc f with h3 | h3
      · exact Or.inl (h3 ▸ h2)
      · exact Or.inr ⟨f, by simp, by rw [← h3]; exact h2⟩
    · exact Or.inr ⟨g, by simp [hg], hgu⟩

/-! ## Claims C1, C2, C3: stream resolution -/

/-- C1: for every player response whose playability status is `"OK"` and
whose adaptive-formats list is the fixture
`[audio/mp4 128000 "a", audio/webm 256000 "b", video/mp4 999999 "c"]`,
stream resolution returns `Ok` with url `"b"`: the strictly greatest
audio bitrate wins and the non-audio format is ignored despite its far
larger bitrate. -/
theorem C1_highest_audio_bitrate_selected (v : Json) (cover : Option String)
    (lyrics : Option (List LyricLine))
    (hstatus : v.pointer ["playabilityStatus", "status"] = some (Json.str "OK"))
    (hformats : v.pointer ["streamingData", "adaptiveFormats"] = some (Json.arr c1formats)) :
    ∃ si, stream_info_of v cover lyrics = Except.ok si ∧ si.url = "b" := by
  unfold stream_info_of adaptiveFormats
  rw [hstatus, hformats]
  simp [selStep, c1formats, mkFormat, Json.get, jsonFind, Json.asStr, Json.asArr,
    Json.asI64, containsSubstr, containsList, stripPre]

/-- C1 witness: the selection theorem applied to the concrete fixture
response. -/
theorem C1_witness :
    ∃ si, stream_info_of c1resp none none = Except.ok si ∧ si.url = "b" :=
  C1_highest_audio_bitrate_selected c1resp none none rfl rfl

/-- C2 (amended): under an `"OK"` playability status, stream resolution
fails with `NoAudioStream` iff no adaptive-format entry has a mime type
containing `"audio"`, a present url string, and a strictly positive
bitrate.  (The original claim required only a non-empty url: it misses
that entries with bitrate ≤ 0 can never beat the running best, which
starts at 0, and that the url merely has to be present.) -/
theorem C2_no_audio_stream_iff (v : Json) (cover : Option String)
    (lyrics : Option (List LyricLine))
    (hstatus : v.pointer ["playabilityStatus", "status"] = some (Json.str "OK")) :
    (stream_info_of v cover lyrics = Except.error "No audio stream found"
      ↔ ∀ f ∈ adaptiveFormats v, viableFormat f = false) := by
  unfold stream_info_of
  rw [hstatus]
  rw [← foldl_selStep_none_iff (adaptiveFormats v)]
  cases hbest : ((adaptiveFormats v).foldl selStep (none, 0)).1 with
  | none => simp [Json.asStr, hbest]
  | some u => simp [Json.asStr, hbest]

/-- A playable response whose only format is an audio candidate with a
non-empty url but bitrate 0. -/
def c2resp : Json := mkPlayerResponse [mkFormat "audio/mp4" 0 "a"]

/-- C2 witness: the amended equivalence applied to a concrete response
all of whose formats are non-viable. -/
theorem C2_witness :
    stream_info_of c2resp none none = Except.error "No audio stream found" :=
  (C2_no_audio_stream_iff c2resp none none rfl).mpr (by decide)

/-- C2 counterexample to the original claim: `c2resp` is playable and
carries a candidate in the claim's sense (mime type containing
`"audio"`, non-empty url `"a"`), yet the call still fails with
`NoAudioStream` because the candidate's bitrate is 0. -/
theorem C2_counterexample :
    stream_info_of c2resp none none = Except.error "No audio stream found"
    ∧ adaptiveFormats c2resp = [mkFormat "audio/mp4" 0 "a"]
    ∧ containsSubstr "audio/mp4" "audio" = true
    ∧ ((mkFormat "audio/mp4" 0 "a").get "url").bind Json.asStr = some "a"
    ∧ ("a" : String) ≠ "" :=
  ⟨rfl, rfl, by decide, rfl, by decide⟩

/-- A playable response whose only format is audio with a positive
bitrate but an empty url string. -/
def c3resp : Json := mkPlayerResponse [mkFormat "audio/mp4" 1 ""]

/-- C3 counterexample to the original claim: the selection loop only
checks that a format's url is present, so an audio format with url `""`
and positive bitrate is selected and `Ok` is returned with an empty
`StreamInfo.url`. -/
theorem C3_counterexample :
    stream_info_of c3resp none none
      = Except.ok { url := "", title := "Unknown", artist := "Unknown",
                    thumbnail_url := none, lyrics := none } := by
  simp [stream_info_of, c3resp, mkPlayerResponse, mkFormat, adaptiveFormats, selStep,
    Json.pointer, jsonFind, Json.get, Json.asStr, Json.asArr, Json.asI64,
    containsSubstr, containsList, stripPre, strReplace, replChars]

/-- C3 (amended): whenever every url string present among the response's
adaptive formats is non-empty, any `Ok` result of stream resolution
carries a non-empty url (the returned url always comes from one of the
format entries). -/
theorem C3_url_from_formats (v : Json) (cover : Option String)
    (lyrics : Option (List LyricLine)) (si : StreamInfo)
    (hurl : ∀ f ∈ adaptiveFormats v, ∀ u, (f.get "url").bind Json.asStr = some u → u ≠ "")
    (hok : stream_info_of v cover lyrics = Except.ok si) : si.url ≠ "" := by
  unfold stream_info_of at hok
  simp only [] at hok
  split at hok
  · cases hok
  · split at hok
    · cases hok
    · next u heq =>
      rcases foldl_selStep_mem (adaptiveFormats v) (none, 0) u heq with h | ⟨f, hf, hfu⟩
      · cases h
      · have : si.url = u := by
          cases hok
          rfl
        rw [this]
        exact hurl f hf u hfu

/-- C3 witness: the amended theorem applied to the fixture response,
whose format urls are all non-empty. -/
theorem C3_witness :
    ({ url := "b", title := "Unknown", artist := "Unknown",
       thumbnail_url := none, lyrics := none } : StreamInfo).url ≠ "" := by
  refine C3_url_from_formats c1resp none none _ ?_ ?_
  · intro f hf u hu
    fin_cases hf <;> simp_all [mkFormat, Json.get, jsonFind, Json.asStr] <;>
      (intro h; subst h; simp at hu)
  · simp [stream_info_of, c1resp, mkPlayerResponse, mkFormat, adaptiveFormats, selStep,
      Json.pointer, jsonFind, Json.get, Json.asStr, Json.asArr, Json.asI64,
      containsSubstr, containsList, stripPre, strReplace, replChars, c1formats]

/-! ## Claims C4, C5: search-response parsing -/

theorem parse_one_item_map_id (item : Json) :
    (parse_one_item item).map SearchResult.video_id = resolvableId item := by
  unfold parse_one_item resolvableId
  cases item.get "musicResponsiveListItemRenderer" with
  | none => rfl
  | some renderer =>
    simp only []
    by_cases h : ((renderer.pointer videoIdPath).bind Json.asStr).getD "" = ""
    · simp [h]
    · simp [h]

theorem parse_one_item_id_ne (item : Json) (r : SearchResult)
    (h : parse_one_item item = some r) : r.video_id ≠ "" := by
  unfold parse_one_item at h
  cases hr : item.get "musicResponsiveListItemRenderer" with
  | none => rw [hr] at h; cases h
  | some renderer =>
    rw [hr] at h
    simp only [] at h
    by_cases hv : ((renderer.pointer videoIdPath).bind Json.asStr).getD "" = ""
    · rw [if_pos hv] at h; cases h
    · rw [if_neg hv] at h
      have hid : r.video_id = ((renderer.pointer videoIdPath).bind Json.asStr).getD "" := by
        cases h; rfl
      rw [hid]; exact hv

theorem parse_items_map_id (items : List Json) :
    (parse_music_search_items items).map SearchResult.video_id
      = items.filterMap resolvableId := by
  unfold parse_music_search_items
  rw [List.map_filterMap]
  induction items with
  | nil => rfl
  | cons i is ih =>
    rw [List.filterMap_cons, List.filterMap_cons, parse_one_item_map_id, ih]

/-- C4: for every completed search response in the initial-page shape
that collects at least one music-shelf item, parsing returns `Ok` with a
page whose results carry exactly the resolvable video ids of the
collected item nodes, in document order (so their count matches and
every returned `video_id` is non-empty; nodes without a resolvable id
are dropped). -/
theorem C4_results_match_resolvable_items (v : Json) (sections : List Json)
    (hsec : (v.pointer sectionsPath).bind Json.asArr = some sections)
    (hne : (sections.foldl sectionStep ([], none)).1.isEmpty = false) :
    ∃ page, parse_music_search_results_with_continuation v = Except.ok page
      ∧ page.results.map SearchResult.video_id
          = (sections.foldl sectionStep ([], none)).1.filterMap resolvableId
      ∧ page.results.length
          = ((sections.foldl sectionStep ([], none)).1.filterMap resolvableId).length
      ∧ ∀ r ∈ page.results, r.video_id ≠ "" := by
  unfold parse_music_search_results_with_continuation collect_music_search_items
  rw [hsec]
  simp only [Option.getD_some, hne, Bool.not_false, Bool.true_or, if_pos]
  refine ⟨_, rfl, ?_, ?_, ?_⟩
  · exact parse_items_map_id _
  · rw [← parse_items_map_id]
    simp
  · intro r hr
    unfold parse_music_search_items at hr
    rw [List.mem_filterMap] at hr
    obtain ⟨a, ha, hpa⟩ := hr
    exact parse_one_item_id_ne a r hpa

/-- Concrete item node with a resolvable video id. -/
def w4item : Json := Json.obj [("musicResponsiveListItemRenderer", Json.obj
  [("overlay", Json.obj [("musicItemThumbnailOverlayRenderer", Json.obj
    [("content", Json.obj [("musicPlayButtonRenderer", Json.obj
      [("playNavigationEndpoint", Json.obj [("watchEndpoint", Json.obj
        [("videoId", Json.str "vid1")])])])])])])])]

/-- Concrete item node without a resolvable video id. -/
def w4noid : Json := Json.obj [("musicResponsiveListItemRenderer", Json.obj [])]

/-- Concrete music-shelf section: two items, shelf token `"tokA"`. -/
def w4shelfA : Json := Json.obj [("musicShelfRenderer", Json.obj
  [("contents", Json.arr [w4item, w4noid]),
   ("continuations", Json.arr [Json.obj [("nextContinuationData",
     Json.obj [("continuation", Json.str "tokA")])]])])]

/-- Concrete later music-shelf section supplying a second token. -/
def w4shelfB : Json := Json.obj [("musicShelfRenderer", Json.obj
  [("contents", Json.arr []),
   ("continuations", Json.arr [Json.obj [("nextContinuationData",
     Json.obj [("continuation", Json.str "tokB")])]])])]

/-- The two concrete sections of the fixture initial page. -/
def w4sections : List Json := [w4shelfA, w4shelfB]

/-- Concrete search response in the initial-page shape. -/
def w4page : Json := Json.obj [("contents", Json.obj [("tabbedSearchResultsRenderer", Json.obj
  [("tabs", Json.arr [Json.obj [("tabRenderer", Json.obj
    [("content", Json.obj [("sectionListRenderer", Json.obj
      [("contents", Json.arr w4sections)])])])]])])])]

/-- C4 witness: the theorem applied to a concrete two-shelf page with
one resolvable and one unresolvable item. -/
theorem C4_witness :
    ∃ page, parse_music_search_results_with_continuation w4page = Except.ok page
      ∧ page.results.map SearchResult.video_id
          = (w4sections.foldl sectionStep ([], none)).1.filterMap resolvableId
      ∧ page.results.length
          = ((w4sections.foldl sectionStep ([], none)).1.filterMap resolvableId).length
      ∧ ∀ r ∈ page.results, r.video_id ≠ "" :=
  C4_results_match_resolvable_items w4page w4sections rfl (by decide)

theorem foldl_sectionStep_token (sections : List Json) (acc : List Json × Option String) :
    (sections.foldl sectionStep acc).2
      = acc.2.or (sections.findSome? (fun s => (s.get "musicShelfRenderer").bind shelfToken)) := by
  induction sections generalizing acc with
  | nil => simp
  | cons s ss ih =>
    rw [List.foldl_cons, ih, List.findSome?_cons]
    cases hs : s.get "musicShelfRenderer" with
    | none => simp [sectionStep, hs]
    | some shelf =>
      cases ht : shelfToken shelf with
      | none => simp [sectionStep, hs, ht]
      | some t => simp [sectionStep, hs, ht, Option.or_assoc]

theorem foldl_itemStep_token (its : List Json) (acc : List Json × Option String) :
    (its.foldl continuationItemStep acc).2 = acc.2.or (its.findSome? markerToken) := by
  induction its generalizing acc with
  | nil => simp
  | cons i is ih =>
    rw [List.foldl_cons, ih, List.findSome?_cons]
    cases ht : markerToken i with
    | none => simp [continuationItemStep, ht]
    | some t => simp [continuationItemStep, ht, Option.or_assoc]

theorem foldl_commandStep_token (commands : List Json) (acc : List Json × Option String) :
    (commands.foldl commandStep acc).2
      = acc.2.or ((commands.flatMap commandItems).findSome? markerToken) := by
  induction commands generalizing acc with
  | nil => simp
  | cons c cs ih =>
    rw [List.foldl_cons, ih, List.flatMap_cons, List.findSome?_append]
    unfold commandStep
    rw [foldl_itemStep_token, Option.or_assoc]

/-- C5: the continuation token kept is the first one encountered in
document order.  In the initial-page shape it is the first
music-shelf section's token (`List.findSome?` over the sections: the
first section supplying one wins, later ones never overwrite it); in
the streamed-continuation shape it is the first marker token among the
concatenated continuation items of all commands. -/
theorem C5_first_token_wins (v : Json) :
    (∀ sections, (v.pointer sectionsPath).bind Json.asArr = some sections →
      ∀ r, r = sections.foldl sectionStep ([], none) →
      (!r.1.isEmpty || r.2.isSome) = true →
      collect_music_search_items v = Except.ok r
        ∧ r.2 = sections.findSome? (fun s => (s.get "musicShelfRenderer").bind shelfToken))
    ∧ ((v.pointer sectionsPath).bind Json.asArr = none →
      v.pointer ["continuationContents", "musicShelfContinuation"] = none →
      ∀ commands, (v.pointer ["onResponseReceivedCommands"]).bind Json.asArr = some commands →
      ∀ r, r = commands.foldl commandStep ([], none) →
      (!r.1.isEmpty || r.2.isSome) = true →
      collect_music_search_items v = Except.ok r
        ∧ r.2 = (commands.flatMap commandItems).findSome? markerToken) := by
  constructor
  · intro sections hsec r hr hcond
    subst hr
    unfold collect_music_search_items
    rw [hsec]
    simp only [Option.getD_some, hcond, if_pos]
    constructor
    · trivial
    · rw [foldl_sectionStep_token]
      simp
  · intro h1 h2 commands hc r hr hcond
    subst hr
    unfold collect_music_search_items
    rw [h1, h2]
    simp only [Option.getD_none, List.foldl_nil]
    rw [if_neg (by simp)]
    unfold collectStreamed
    rw [hc]
    simp only [Option.getD_some, hcond, if_pos]
    constructor
    · trivial
    · rw [foldl_commandStep_token]
      simp

/-- Concrete continuation marker carrying a token. -/
def w5marker (t : String) : Json := Json.obj [("continuationItemRenderer", Json.obj
  [("continuationEndpoint", Json.obj [("continuationCommand", Json.obj
    [("token", Json.str t)])])])]

/-- Concrete streamed-continuation command list: one result item, then
two markers `"tokC"`, `"tokD"`. -/
def w5commands : List Json :=
  [Json.obj [("appendContinuationItemsAction", Json.obj
    [("continuationItems", Json.arr [w4item, w5marker "tokC", w5marker "tokD"])])]]

/-- Concrete search response in the streamed-continuation shape. -/
def w5streamed : Json := Json.obj [("onResponseReceivedCommands", Json.arr w5commands)]

/-- C5 witness: both shapes applied at concrete responses, where the
first of two tokens wins (`"tokA"` over `"tokB"`, `"tokC"` over
`"tokD"`). -/
theorem C5_witness :
    ((collect_music_search_items w4page = Except.ok (w4sections.foldl sectionStep ([], none))
      ∧ (w4sections.foldl sectionStep ([], none)).2
          = w4sections.findSome? (fun s => (s.get "musicShelfRenderer").bind shelfToken))
      ∧ (w4sections.foldl sectionStep ([], none)).2 = some "tokA")
    ∧ ((collect_music_search_items w5streamed = Except.ok (w5commands.foldl commandStep ([], none))
      ∧ (w5commands.foldl commandStep ([], none)).2
          = (w5commands.flatMap commandItems).findSome? markerToken)
      ∧ (w5commands.foldl commandStep ([], none)).2 = some "tokC") :=
  ⟨⟨(C5_first_token_wins w4page).1 w4sections rfl _ rfl (by decide), rfl⟩,
   ⟨(C5_first_token_wins w5streamed).2 rfl rfl w5commands rfl _ rfl (by decide), rfl⟩⟩

/-! ## Claims C6, C7: synced-lyrics parsing -/

set_option maxRecDepth 8000 in
/-- C6: the spec's lyric fixture (a single-tag line and a two-tag line)
parses to exactly three lyric lines, sorted ascending by timestamp, the
two-tag line producing two entries sharing its text, and the fraction
digits read as a decimal fraction of a second. -/
theorem C6_lyrics_fixture :
    parse_synced_lyrics "[00:12.340]Hello\n[00:05.00][00:20.00]Echo"
      = [{ timestamp := F64.fin 5, text := "Echo" },
         { timestamp := F64.fin 12.34, text := "Hello" },
         { timestamp := F64.fin 20, text := "Echo" }] := by
  have h1 : collectLyricLines "[00:12.340]Hello\n[00:05.00][00:20.00]Echo"
      = [{ timestamp := F64.fin 12.34, text := "Hello" },
         { timestamp := F64.fin 5, text := "Echo" },
         { timestamp := F64.fin 20, text := "Echo" }] := by
    unfold collectLyricLines
    rw [show linesOf "[00:12.340]Hello\n[00:05.00][00:20.00]Echo"
        = ["[00:12.340]Hello", "[00:05.00][00:20.00]Echo"] from rfl]
    simp only [List.foldl_cons, List.foldl_nil]
    simp [scanTags, splitFirst, parse_lyric_timestamp, parseF64, parseF64Body,
      parseDecimal, parseMantissa, splitFirstEMark, digitsVal, splitAll,
      F64.mul60, F64.add, F64.divPow10, trimStr, trimChars, isWsChar]
    norm_num
  unfold parse_synced_lyrics
  rw [h1]
  norm_num [List.mergeSort, List.merge, lyricLe, f64Cmp]

theorem collectNegFixture :
    collectLyricLines "[-1:00]Hi" = [{ timestamp := F64.fin (-60), text := "Hi" }] := by
  unfold collectLyricLines
  rw [show linesOf "[-1:00]Hi" = ["[-1:00]Hi"] from rfl]
  simp only [List.foldl_cons, List.foldl_nil]
  simp [scanTags, splitFirst, parse_lyric_timestamp, parseF64, parseF64Body,
    parseDecimal, parseMantissa, splitFirstEMark, digitsVal, splitAll,
    F64.mul60, F64.add, F64.neg, trimStr, trimChars, isWsChar]

/-- C7 counterexample to the original claim: Rust's `f64` reader accepts
a sign, so the tag `[-1:00]` parses and produces a lyric line with the
finite negative timestamp −60, refuting "every timestamp is ≥ 0". -/
theorem C7_counterexample :
    parse_synced_lyrics "[-1:00]Hi" = [{ timestamp := F64.fin (-60), text := "Hi" }]
    ∧ ((-60 : ℚ) < 0) := by
  constructor
  · unfold parse_synced_lyrics
    rw [collectNegFixture]
    exact List.mergeSort_singleton _
  · norm_num

theorem collect_text_ne (lines : List String) (acc : List LyricLine)
    (h : ∀ x ∈ acc, x.text ≠ "") :
    ∀ x ∈ lines.foldl (fun acc raw =>
      let scanned := scanTags raw.data
      let text := trimStr (String.mk scanned.2)
      if text = "" then acc
      else acc ++ scanned.1.map (fun t => { timestamp := t, text := text })) acc,
      x.text ≠ "" := by
  induction lines generalizing acc with
  | nil => exact h
  | cons raw rest ih =>
    rw [List.foldl_cons]
    apply ih
    simp only []
    split_ifs with ht
    · exact h
    · intro x hx
      rw [List.mem_append] at hx
      rcases hx with hx | hx
      · exact h x hx
      · rw [List.mem_map] at hx
        obtain ⟨t, ht2, hx2⟩ := hx
        rw [← hx2]
        exact ht

/-- Totalised variant of the sort comparison used only in proofs: NaN
timestamps are pushed first, everything else compares as in `lyricLe`.
On NaN-free lists it agrees with `lyricLe` and, unlike it, is
transitive and total, which `List.mergeSort`'s sortedness and stability
lemmas need. -/
def F64.leTot : F64 → F64 → Bool
  | F64.nan, _ => true
  | _, F64.nan => false
  | x, y =>
    match f64Cmp x y with
    | some Ordering.gt => false
    | _ => true

/-- Totalised comparator on lyric lines. -/
def lyricLeTot (a b : LyricLine) : Bool :=
  F64.leTot a.timestamp b.timestamp

@[simp] theorem leTot_nan_left (y : F64) : F64.leTot F64.nan y = true := by
  cases y <;> rfl

@[simp] theorem leTot_inf_nan (s : Bool) : F64.leTot (F64.inf s) F64.nan = false := rfl

@[simp] theorem leTot_fin_nan (q : ℚ) : F64.leTot (F64.fin q) F64.nan = false := rfl

@[simp] theorem leTot_inf_inf (s t : Bool) :
    F64.leTot (F64.inf s) (F64.inf t) = (!s || t) := by
  cases s <;> cases t <;> rfl

@[simp] theorem leTot_inf_fin (s : Bool) (q : ℚ) :
    F64.leTot (F64.inf s) (F64.fin q) = !s := by
  cases s <;> rfl

@[simp] theorem leTot_fin_inf (q : ℚ) (t : Bool) :
    F64.leTot (F64.fin q) (F64.inf t) = t := by
  cases t <;> rfl

@[simp] theorem leTot_fin_fin (a b : ℚ) :
    F64.leTot (F64.fin a) (F64.fin b) = decide (a ≤ b) := by
  by_cases h1 : a < b
  · simp [F64.leTot, f64Cmp, h1, le_of_lt h1]
  · by_cases h2 : b < a
    · simp [F64.leTot, f64Cmp, h1, h2, not_le.mpr h2]
    · have h3 : a = b := le_antisymm (not_lt.mp h2) (not_lt.mp h1)
      simp [F64.leTot, f64Cmp, h1, h2, h3]

theorem F64.leTot_trans : ∀ x y z : F64,
    F64.leTot x y = true → F64.leTot y z = true → F64.leTot x z = true
  | F64.nan, _, _, _, _ => by simp
  | F64.inf _, F64.nan, _, h1, _ => by simp at h1
  | F64.fin _, F64.nan, _, h1, _ => by simp at h1
  | F64.inf _, F64.inf _, F64.nan, _, h2 => by simp at h2
  | F64.inf _, F64.fin _, F64.nan, _, h2 => by simp at h2
  | F64.fin _, F64.inf _, F64.nan, _, h2 => by simp at h2
  | F64.fin _, F64.fin _, F64.nan, _, h2 => by simp at h2
  | F64.inf s, F64.inf t, F64.inf u, h1, h2 => by
    simp at h1 h2 ⊢
    cases s <;> cases t <;> cases u <;> simp_all
  | F64.inf s, F64.inf t, F64.fin c, h1, h2 => by
    simp at h1 h2 ⊢
    cases s <;> cases t <;> simp_all
  | F64.inf s, F64.fin b, F64.inf u, h1, _ => by
    simp at h1 ⊢
    cases s <;> simp_all
  | F64.inf s, F64.fin b, F64.fin c, h1, _ => by
    simp at h1 ⊢
    exact h1
  | F64.fin a, F64.inf t, F64.inf u, h1, h2 => by
    simp at h1 h2 ⊢
    cases t <;> cases u <;> simp_all
  | F64.fin a, F64.inf t, F64.fin c, h1, h2 => by
    simp at h1 h2
    simp [h1] at h2
  | F64.fin a, F64.fin b, F64.inf u, _, h2 => by
    simp at h2 ⊢
    exact h2
  | F64.fin a, F64.fin b, F64.fin c, h1, h2 => by
    simp at h1 h2 ⊢
    exact le_trans h1 h2

theorem F64.leTot_total : ∀ x y : F64, (F64.leTot x y || F64.leTot y x) = true
  | F64.nan, _ => by simp
  | F64.inf _, F64.nan => by simp
  | F64.fin _, F64.nan => by simp
  | F64.inf s, F64.inf t => by cases s <;> cases t <;> simp
  | F64.inf s, F64.fin _ => by cases s <;> simp
  | F64.fin _, F64.inf t => by cases t <;> simp
  | F64.fin a, F64.fin b => by simp [le_total]

theorem F64.leTot_refl (x : F64) : F64.leTot x x = true := by
  cases x with
  | nan => simp
  | inf s => cases s <;> simp
  | fin q => simp

theorem lyricLeTot_trans (a b c : LyricLine) (h1 : lyricLeTot a b = true)
    (h2 : lyricLeTot b c = true) : lyricLeTot a c = true :=
  F64.leTot_trans a.timestamp b.timestamp c.timestamp h1 h2

theorem lyricLeTot_total (a b : LyricLine) :
    (lyricLeTot a b || lyricLeTot b a) = true :=
  F64.leTot_total a.timestamp b.timestamp

theorem lyricLe_eq_tot (a b : LyricLine) (ha : a.timestamp ≠ F64.nan)
    (hb : b.timestamp ≠ F64.nan) : lyricLe a b = lyricLeTot a b := by
  unfold lyricLe lyricLeTot
  cases hx : a.timestamp with
  | nan => exact absurd hx ha
  | inf s =>
    cases hy : b.timestamp with
    | nan => exact absurd hy hb
    | inf t => cases s <;> cases t <;> rfl
    | fin q => cases s <;> rfl
  | fin q =>
    cases hy : b.timestamp with
    | nan => exact absurd hy hb
    | inf t => cases t <;> rfl
    | fin r =>
      by_cases h1 : q < r
      · simp [f64Cmp, F64.leTot, h1, le_of_lt h1]
      · by_cases h2 : r < q
        · simp [f64Cmp, F64.leTot, h1, h2, not_le.mpr h2]
        · have h3 : q = r := le_antisymm (not_lt.mp h2) (not_lt.mp h1)
          simp [f64Cmp, F64.leTot, h1, h2, h3]

/-- `List.merge` only compares members, so comparators that agree on
the members of both lists merge them identically. -/
theorem merge_congr {α : Type} {le le' : α → α → Bool} :
    ∀ xs ys : List α, (∀ a ∈ xs, ∀ b ∈ ys, le a b = le' a b) →
      xs.merge ys le = xs.merge ys le' := by
  intro xs
  induction xs with
  | nil => intro ys h; simp
  | cons x xs ih =>
    intro ys
    induction ys with
    | nil => intro h; simp
    | cons y ys ih2 =>
      intro h
      rw [List.cons_merge_cons, List.cons_merge_cons, h x (by simp) y (by simp)]
      split
      · rw [ih (y :: ys) (fun a ha b hb => h a (List.mem_cons_of_mem x ha) b hb)]
      · rw [ih2 (fun a ha b hb => h a ha b (List.mem_cons_of_mem y hb))]

/-- `List.mergeSort` only compares members, so comparators that agree
on the members of the list sort it identically. -/
theorem mergeSort_congr {α : Type} (le le' : α → α → Bool) :
    ∀ (l : List α), (∀ a ∈ l, ∀ b ∈ l, le a b = le' a b) →
      l.mergeSort le = l.mergeSort le'
  | [], _ => by simp
  | [a], _ => by simp
  | a :: b :: xs, h => by
    simp only [List.mergeSort]
    have hl1 : (List.splitInTwo ⟨a :: b :: xs, rfl⟩).1.1.length < xs.length + 1 + 1 := by
      simp [List.splitInTwo_fst]; omega
    have hl2 : (List.splitInTwo ⟨a :: b :: xs, rfl⟩).2.1.length < xs.length + 1 + 1 := by
      simp [List.splitInTwo_snd]; omega
    have m1 : ∀ x ∈ (List.splitInTwo ⟨a :: b :: xs, rfl⟩).1.1, x ∈ a :: b :: xs := by
      intro x hx
      rw [List.splitInTwo_fst] at hx
      exact (List.take_sublist _ _).subset hx
    have m2 : ∀ x ∈ (List.splitInTwo ⟨a :: b :: xs, rfl⟩).2.1, x ∈ a :: b :: xs := by
      intro x hx
      rw [List.splitInTwo_snd] at hx
      exact (List.drop_sublist _ _).subset hx
    rw [mergeSort_congr le le' _ (fun x hx y hy => h x (m1 x hx) y (m1 y hy)),
        mergeSort_congr le le' _ (fun x hx y hy => h x (m2 x hx) y (m2 y hy))]
    exact merge_congr _ _ (fun x hx y hy => by
      rw [List.mem_mergeSort] at hx hy
      exact h x (m1 x hx) y (m2 y hy))
termination_by l => l.length

/-- C7 (amended): every lyric line the parser produces has non-empty
display text; and whenever no produced timestamp is NaN (NaN makes the
comparator non-transitive and Rust leaves the resulting order
unspecified), the output is sorted ascending under the sort's
comparator, and tied timestamps keep their relative input order (the
original claim's "timestamp ≥ 0" fails: a signed tag such as `[-1:00]`
parses to a negative timestamp). -/
theorem C7_sorted_nonempty_text (s : String) :
    (∀ l ∈ parse_synced_lyrics s, l.text ≠ "")
    ∧ ((∀ l ∈ collectLyricLines s, l.timestamp ≠ F64.nan) →
        List.Pairwise (fun a b => lyricLe a b = true) (parse_synced_lyrics s)
        ∧ ∀ a b : LyricLine, a.timestamp = b.timestamp →
            [a, b].Sublist (collectLyricLines s) →
            [a, b].Sublist (parse_synced_lyrics s)) := by
  constructor
  · intro l hl
    have hperm := List.mergeSort_perm (collectLyricLines s) lyricLe
    have hmem : l ∈ collectLyricLines s := hperm.mem_iff.mp hl
    exact collect_text_ne (linesOf s) [] (by simp) l hmem
  · intro hn
    have hcongr : (collectLyricLines s).mergeSort lyricLe
        = (collectLyricLines s).mergeSort lyricLeTot :=
      mergeSort_congr lyricLe lyricLeTot _
        (fun a ha b hb => lyricLe_eq_tot a b (hn a ha) (hn b hb))
    constructor
    · unfold parse_synced_lyrics
      rw [hcongr]
      have hs := @List.sorted_mergeSort LyricLine lyricLeTot lyricLeTot_trans
        lyricLeTot_total (collectLyricLines s)
      refine hs.imp_of_mem ?_
      intro a b hma hmb hab
      rw [List.mem_mergeSort] at hma hmb
      rw [lyricLe_eq_tot a b (hn a hma) (hn b hmb)]
      exact hab
    · intro a b hab hsub
      have hle : lyricLeTot a b = true := by
        unfold lyricLeTot
        rw [hab]
        exact F64.leTot_refl _
      have hpair := List.pair_sublist_mergeSort lyricLeTot_trans lyricLeTot_total hle hsub
      unfold parse_synced_lyrics
      rw [hcongr]
      exact hpair

/-- C7 witness: the amended theorem applied at a concrete input whose
single collected timestamp (−60) is not NaN. -/
theorem C7_witness :
    (∀ l ∈ parse_synced_lyrics "[-1:00]Hi", l.text ≠ "")
    ∧ (List.Pairwise (fun a b => lyricLe a b = true) (parse_synced_lyrics "[-1:00]Hi")
      ∧ ∀ a b : LyricLine, a.timestamp = b.timestamp →
          [a, b].Sublist (collectLyricLines "[-1:00]Hi") →
          [a, b].Sublist (parse_synced_lyrics "[-1:00]Hi")) := by
  have h := C7_sorted_nonempty_text "[-1:00]Hi"
  refine ⟨h.1, h.2 ?_⟩
  intro l hl
  rw [collectNegFixture] at hl
  simp at hl
  rw [hl]
  simp

/-! ## Claims C8, C9, C10: transport, thumbnail upgrade, delegation -/

/-- Decoded response carrying both a visitor token and an error
envelope. -/
def c8resp : Json := Json.obj
  [("responseContext", Json.obj [("visitorData", Json.str "v")]),
   ("error", Json.obj [("message", Json.str "boom")])]

/-- C8 counterexample to the original claim: on a decoded response with
both a visitor token and an error envelope, the call fails with the
server's message yet the session's visitor id changes from `none` to
`some "v"` — the state is not left unchanged on error. -/
theorem C8_counterexample :
    post_json_decode c8resp none = (Except.error "boom", some "v")
    ∧ some "v" ≠ (none : Option String) :=
  ⟨rfl, by simp⟩

/-- C8 (amended): `post_json` captures a returned visitor token into the
session whenever the decoded response carries one — before, and thus
regardless of, the error-envelope check; an error envelope still makes
the call fail with the server message (default `"Innertube error"`),
and otherwise the decoded value is returned as-is.  The visitor token
is the session's only mutation. -/
theorem C8_visitor_capture_before_error (value : Json) (visitor_id : Option String) :
    (post_json_decode value visitor_id).2
      = ((value.pointer ["responseContext", "visitorData"]).bind Json.asStr).or visitor_id
    ∧ (value.get "error" = none → (post_json_decode value visitor_id).1 = Except.ok value)
    ∧ (∀ err, value.get "error" = some err →
        (post_json_decode value visitor_id).1
          = Except.error (((err.get "message").bind Json.asStr).getD "Innertube error")) := by
  unfold post_json_decode
  refine ⟨?_, ?_, ?_⟩
  · cases hv : (value.pointer ["responseContext", "visitorData"]).bind Json.asStr with
    | none => cases value.get "error" <;> simp [hv]
    | some v => cases value.get "error" <;> simp [hv]
  · intro he
    rw [he]
  · intro err he
    rw [he]

/-- C8 witness: the amended theorem applied to the concrete response
with both fields present. -/
theorem C8_witness :
    (post_json_decode c8resp none).2 = some "v"
    ∧ (post_json_decode c8resp none).1 = Except.error "boom" := by
  have h := C8_visitor_capture_before_error c8resp none
  refine ⟨h.1, ?_⟩
  exact h.2.2 (Json.obj [("message", Json.str "boom")]) rfl

/-- C9: what the cover-upgrade step actually does on the three tokens.
The `"w120-h120"` replacement runs first, so a URL containing
`"w120-h120-rj"` comes out as `"w500-h500-rj"`, not `"w500-h500"`: the
third replacement's pattern can never match once the first has run (a
dead pattern), contradicting the claim's (and the code's own listed)
whole-token replacement for `"w120-h120-rj"`. -/
theorem C9_code_result :
    upgrade_music_thumbnail "https://cdn.example/w120-h120-rj/cover.jpg"
      = "https://cdn.example/w500-h500-rj/cover.jpg"
    ∧ upgrade_music_thumbnail "https://cdn.example/w120-h120/cover.jpg"
      = "https://cdn.example/w500-h500/cover.jpg"
    ∧ upgrade_music_thumbnail "https://cdn.example/w60-h60/cover.jpg"
      = "https://cdn.example/w500-h500/cover.jpg"
    ∧ "https://cdn.example/w500-h500-rj/cover.jpg" ≠ "https://cdn.example/w500-h500/cover.jpg" := by
  refine ⟨?_, ?_, ?_, ?_⟩ <;>
    simp [upgrade_music_thumbnail, strReplace, replChars, stripPre]

/-- C10: `search_music` is the paginated entry point called with no
continuation, keeping only the results and discarding the page's
continuation token: it succeeds with exactly the page's results and
fails with exactly the page call's error. -/
theorem C10_search_music_delegates (transport : Json → Except String Json) (query : String) :
    (∀ rs, search_music transport query = Except.ok rs
      ↔ ∃ page, search_music_page transport query none = Except.ok page ∧ page.results = rs)
    ∧ (∀ e, search_music transport query = Except.error e
      ↔ search_music_page transport query none = Except.error e) := by
  unfold search_music
  cases h : search_music_page transport query none with
  | error e => simp [h]
  | ok page =>
    refine ⟨fun rs => ?_, fun e => ?_⟩ <;> simp [h, eq_comm]
